import Mathlib

/-!
# Formal model of the MAKORA broker-integration and risk-control core

Shallow embedding of the rate limiter, TTL cache with in-flight
deduplication, instrument resolution, trading-provider mapping logic and
the risk/approval workflow, together with theorems about the testable
properties of the specification.

Numbers are modelled as `ℚ` (JavaScript numerics, overflow-free range in
scope), times as `Int` milliseconds, and fallible operations as `Except`.
JavaScript `undefined`/`null` optional fields become `Option`.
-/

namespace Makora

/-- Closed error taxonomy of `src/lib/errors.ts` (`ErrorCode`). Messages and
`details` payloads are dropped; only the code is semantically relevant. -/
inductive ErrorCode where
  | INVALID_INPUT
  | UNAUTHORIZED
  | FORBIDDEN
  | NOT_FOUND
  | CONFLICT
  | RATE_LIMITED
  | PROVIDER_ERROR
  | POLICY_VIOLATION
  | KILL_SWITCH_ACTIVE
  | INVALID_APPROVAL_TOKEN
  | EXPIRED_APPROVAL_TOKEN
  | MARKET_CLOSED
  | INSUFFICIENT_BUYING_POWER
  | FEATURE_DISABLED
  | NOT_SUPPORTED
  | INTERNAL_ERROR
deriving DecidableEq, Repr

namespace RateLimiter

/-- Sliding window length of the rate limiter (`windowMs = 60_000`). -/
def windowMs : Int := 60000

/-- Safety margin added to the wait (`+50ms safety margin` in `acquire`). -/
def safetyMarginMs : Int := 50

/-- Default cap: `maxRequestsPerMinute ?? 55` in `EtoroClient`. -/
def defaultMaxRequests : Nat := 55

/-- Embeds `RateLimiter.prune()`: repeatedly shift the leading timestamp
while it is older than `now - windowMs`. On the (always sorted) timestamp
list this is `dropWhile`. -/
def prune (timestamps : List Int) (now : Int) : List Int :=
  timestamps.dropWhile (fun t => decide (t < now - windowMs))

/-- Embeds one complete, non-interleaved run of `RateLimiter.acquire()`:
prune, and if the window is full wait `oldest + windowMs - now + 50` ms,
prune again, then push the admission timestamp. Time is passed explicitly:
`now` is the clock at entry and the returned `Int` is the admission
timestamp (entry time, or wake-up time when the call had to wait). -/
def acquire (maxRequests : Nat) (timestamps : List Int) (now : Int) :
    List Int × Int :=
  let pruned := prune timestamps now
  if maxRequests ≤ pruned.length then
    match pruned with
    | [] => (pruned ++ [now], now)
    | oldest :: _ =>
      let waitMs := oldest + windowMs - now + safetyMarginMs
      if 0 < waitMs then
        let resumeAt := now + waitMs
        (prune pruned resumeAt ++ [resumeAt], resumeAt)
      else
        (pruned ++ [now], now)
  else
    (pruned ++ [now], now)

/-- Admission timestamps produced by a sequential run of `acquire()` calls
arriving at the given times, starting from the given timestamp list. -/
def admissionsFrom (maxRequests : Nat) (timestamps : List Int) :
    List Int → List Int
  | [] => []
  | t :: rest =>
    (acquire maxRequests timestamps t).2 ::
      admissionsFrom maxRequests (acquire maxRequests timestamps t).1 rest

/-- The arrival times describe non-overlapping `acquire()` calls: each call
arrives no earlier than the admission (return) time of the previous call. -/
def Sequential (maxRequests : Nat) (timestamps : List Int) (lastAdmit : Int) :
    List Int → Prop
  | [] => True
  | t :: rest =>
    lastAdmit ≤ t ∧
      Sequential maxRequests (acquire maxRequests timestamps t).1
        (acquire maxRequests timestamps t).2 rest

/-- Number of admitted timestamps inside the trailing window `[t - windowMs, t]`. -/
def countWindow (admitted : List Int) (t : Int) : Nat :=
  (admitted.filter (fun a => decide (t - windowMs ≤ a) && decide (a ≤ t))).length

/-- An atomic step of an interleaved (concurrent) execution: either a caller
enters `acquire()` at clock time `now`, or the longest-sleeping suspended
caller wakes up at its recorded deadline and finishes its `acquire()`. -/
inductive ConcEvent where
  | call (now : Int)
  | wake
deriving DecidableEq, Repr

/-- Global state of an interleaved execution: the shared timestamp list, the
FIFO queue of wake deadlines of suspended callers, and the trace of
admission timestamps. -/
structure ConcState where
  timestamps : List Int
  sleepers : List Int
  admitted : List Int
deriving DecidableEq, Repr

/-- One interleaved step. A `call` runs the synchronous prologue of
`acquire()` (prune, capacity check); if the window is full it suspends with
wake deadline `now + (oldest + windowMs - now + 50)`, else it pushes its
admission. A `wake` runs the post-sleep part (prune again, push) at the
recorded deadline — exactly as the code does, with no re-check of the
capacity after waking. -/
def concStep (maxRequests : Nat) (s : ConcState) : ConcEvent → ConcState
  | .call now =>
    let pruned := prune s.timestamps now
    if maxRequests ≤ pruned.length then
      match pruned with
      | [] => { s with timestamps := pruned ++ [now], admitted := s.admitted ++ [now] }
      | oldest :: _ =>
        let waitMs := oldest + windowMs - now + safetyMarginMs
        if 0 < waitMs then
          { s with timestamps := pruned, sleepers := s.sleepers ++ [now + waitMs] }
        else
          { s with timestamps := pruned ++ [now], admitted := s.admitted ++ [now] }
    else
      { s with timestamps := pruned ++ [now], admitted := s.admitted ++ [now] }
  | .wake =>
    match s.sleepers with
    | [] => s
    | deadline :: rest =>
      { timestamps := prune s.timestamps deadline ++ [deadline],
        sleepers := rest,
        admitted := s.admitted ++ [deadline] }

/-- Run an interleaved execution from the initial (empty) limiter state. -/
def concRun (maxRequests : Nat) (events : List ConcEvent) : ConcState :=
  events.foldl (concStep maxRequests) ⟨[], [], []⟩

/-- Invariant carried through a sequential run: all admissions are at most
`lastAdmit`, admissions are sorted, the live timestamp list is exactly the
admissions inside the window ending at `lastAdmit`, it never exceeds the
cap, and no trailing window of past admissions exceeds the cap. -/
def Inv (maxRequests : Nat) (admitted timestamps : List Int) (lastAdmit : Int) : Prop :=
  (∀ x ∈ admitted, x ≤ lastAdmit) ∧
  admitted.Pairwise (· ≤ ·) ∧
  timestamps = admitted.filter (fun x => decide (lastAdmit - windowMs ≤ x)) ∧
  timestamps.length ≤ maxRequests ∧
  (∀ t, countWindow admitted t ≤ maxRequests)

end RateLimiter

namespace TTLCache

/-- Portfolio snapshot TTL (`PORTFOLIO_CACHE_TTL_MS`). -/
def portfolioTtlMs : Int := 15000

/-- Rate snapshot TTL (`RATES_CACHE_TTL_MS`). -/
def ratesTtlMs : Int := 15000

/-- What a caller of `getCachedPortfolio`/`getCachedRates` receives:
a fresh cached value, the identifier of an already in-flight fetch it
piggybacks on, or the identifier of the new fetch it itself started. -/
inductive CacheOutcome (α : Type) where
  | cached (value : α)
  | joined (fetchId : Nat)
  | started (fetchId : Nat)
deriving DecidableEq, Repr

/-- State of one TTL cache slot (`portfolioCache`/`portfolioPending`, and
likewise for rates). `pendingFetch` holds the identifier of the single
in-flight fetch, when one exists; `fetchesStarted` counts underlying
fetches ever started (each new fetch gets the next identifier). -/
structure Slot (α : Type) where
  cache : Option (α × Int)
  pendingFetch : Option Nat
  fetchesStarted : Nat
deriving DecidableEq, Repr

/-- Initial state of a cache slot: no cache entry, nothing in flight. -/
def emptySlot (α : Type) : Slot α := ⟨none, none, 0⟩

/-- Cache-miss path shared by `requestStep`: piggyback on the in-flight
fetch if one exists, otherwise start a new one and set the in-flight marker. -/
def requestMiss {α : Type} (s : Slot α) : CacheOutcome α × Slot α :=
  match s.pendingFetch with
  | some fid => (.joined fid, s)
  | none =>
    (.started s.fetchesStarted,
      { s with pendingFetch := some s.fetchesStarted,
               fetchesStarted := s.fetchesStarted + 1 })

/-- Embeds the synchronous prologue of `getCachedPortfolio` (and of
`getCachedRates`): serve a fresh entry immediately (`now < expiresAt`),
otherwise share the pending fetch or start a new one. -/
def requestStep {α : Type} (s : Slot α) (now : Int) : CacheOutcome α × Slot α :=
  match s.cache with
  | some (data, expiresAt) =>
    if now < expiresAt then (.cached data, s) else requestMiss s
  | none => requestMiss s

/-- Embeds the `.then`/`.catch` continuations of the in-flight fetch: on
success cache the result until `now + ttl` and clear the in-flight marker;
on failure only clear the marker (the failure is not cached). -/
def settleStep {α : Type} (s : Slot α) (now : Int) (result : Except ErrorCode α)
    (ttl : Int) : Slot α :=
  match result with
  | .ok data => { s with cache := some (data, now + ttl), pendingFetch := none }
  | .error _ => { s with pendingFetch := none }

/-- Outcomes of a sequence of `requestStep`s with no settle in between
(concurrent callers arriving while the first fetch is still in flight). -/
def requestSeq {α : Type} (s : Slot α) : List Int → List (CacheOutcome α) × Slot α
  | [] => ([], s)
  | t :: rest =>
    let r := requestStep s t
    let tail := requestSeq r.2 rest
    (r.1 :: tail.1, tail.2)

/-- No fresh entry exists at time `t` (empty or expired cache). -/
def StaleAt {α : Type} (s : Slot α) (t : Int) : Prop :=
  match s.cache with
  | some (_, expiresAt) => expiresAt ≤ t
  | none => True

end TTLCache

namespace Etoro

/-- Rate entry of the `/market-data/instruments/rates` response
(`EtoroRate` in `trading.ts`), with its two field-casing aliases. -/
structure EtoroRate where
  instrumentId : Option Nat := none
  instrumentID : Option Nat := none
  ask : Option ℚ := none
  bid : Option ℚ := none
  lastExecution : Option ℚ := none
deriving DecidableEq, Repr

/-- A raw portfolio position (`EtoroPortfolioPosition`), with all the
field-casing aliases the broker uses. -/
structure EtoroPortfolioPosition where
  positionId : Option Nat := none
  positionID : Option Nat := none
  PositionID : Option Nat := none
  instrumentId : Option Nat := none
  instrumentID : Option Nat := none
  InstrumentID : Option Nat := none
  isBuy : Option Bool := none
  openRate : Option ℚ := none
  closeRate : Option ℚ := none
  amount : Option ℚ := none
  units : Option ℚ := none
  pnL : Option ℚ := none
  pnl : Option ℚ := none
  PnL : Option ℚ := none
  unrealizedPnL : Option ℚ := none
  leverage : Option ℚ := none
deriving DecidableEq, Repr

/-- A raw portfolio order (`EtoroPortfolioOrder`). -/
structure EtoroPortfolioOrder where
  orderId : Option Nat := none
  orderID : Option Nat := none
  instrumentId : Option Nat := none
  instrumentID : Option Nat := none
  isBuy : Option Bool := none
  amount : Option ℚ := none
  amountInUnits : Option ℚ := none
  units : Option ℚ := none
  leverage : Option ℚ := none
  statusId : Option Nat := none
  statusID : Option Nat := none
deriving DecidableEq, Repr

/-- A mirror (copy-trading aggregation view) that may repeat positions
(`EtoroMirror`). -/
structure EtoroMirror where
  mirrorId : Option Nat := none
  mirrorID : Option Nat := none
  positions : Option (List EtoroPortfolioPosition) := none
deriving DecidableEq, Repr

/-- The `clientPortfolio` object of the portfolio/pnl responses. -/
structure ClientPortfolio where
  credit : Option ℚ := none
  unrealizedPnL : Option ℚ := none
  positions : Option (List EtoroPortfolioPosition) := none
  mirrors : Option (List EtoroMirror) := none
  orders : Option (List EtoroPortfolioOrder) := none
  ordersForOpen : Option (List EtoroPortfolioOrder) := none
  ordersForClose : Option (List EtoroPortfolioOrder) := none
deriving DecidableEq, Repr

/-- The portfolio (and pnl) response envelope (`EtoroPortfolioResponse`). -/
structure EtoroPortfolioResponse where
  clientPortfolio : Option ClientPortfolio := none
deriving DecidableEq, Repr

/-- Resolved instrument metadata as consumed by the trading provider
(the `{ symbol; instrumentTypeId?; exchangeId? }` map values). -/
structure PositionMeta where
  symbol : String
  instrumentTypeId : Option Nat := none
  exchangeId : Option Nat := none
deriving DecidableEq, Repr

/-- Order parameters accepted by `createOrder` (`OrderParams`); sides and
types are the literal strings the code compares against. -/
structure OrderParams where
  symbol : String
  side : String
  type : String
  qty : Option ℚ := none
  notional : Option ℚ := none
  time_in_force : String := "day"
  limit_price : Option ℚ := none
  stop_price : Option ℚ := none
deriving DecidableEq, Repr

/-- The normalized position the provider returns (`Position` in
`providers/types`), restricted to the data fields `parsePosition` sets;
the two clock-derived string fields are omitted. -/
structure Position where
  position_id : Option String
  asset_id : String
  symbol : String
  exchange : String
  asset_class : String
  avg_entry_price : ℚ
  qty : ℚ
  side : String
  market_value : ℚ
  cost_basis : ℚ
  unrealized_pl : ℚ
  unrealized_plpc : ℚ
  unrealized_intraday_pl : ℚ
  unrealized_intraday_plpc : ℚ
  current_price : ℚ
  lastday_price : ℚ
  change_today : ℚ
deriving DecidableEq, Repr

/-- The account summary returned by `getAccount` (`Account`), restricted to
its data fields (the `created_at` clock string is omitted). -/
structure Account where
  id : String
  account_number : String
  status : String
  currency : String
  cash : ℚ
  buying_power : ℚ
  regt_buying_power : ℚ
  daytrading_buying_power : ℚ
  equity : ℚ
  last_equity : ℚ
  long_market_value : ℚ
  short_market_value : ℚ
  portfolio_value : ℚ
  pattern_day_trader : Bool
  trading_blocked : Bool
  transfers_blocked : Bool
  account_blocked : Bool
  multiplier : String
  shorting_enabled : Bool
  maintenance_margin : ℚ
  initial_margin : ℚ
  daytrade_count : Nat
deriving DecidableEq, Repr

/-- JavaScript `toUpperCase`, as a structural map over the characters (the
core `String.toUpper` is well-founded-recursive and does not reduce in
proofs). -/
def jsToUpper (s : String) : String := ⟨s.data.map Char.toUpper⟩

/-- JavaScript `trim`: strip leading and trailing whitespace. -/
def jsTrim (s : String) : String :=
  ⟨((s.data.dropWhile Char.isWhitespace).reverse.dropWhile
      Char.isWhitespace).reverse⟩

/-- JavaScript `includes` with a single-character needle. -/
def jsContainsChar (s : String) (c : Char) : Bool := s.data.contains c

/-- JavaScript `endsWith`. -/
def jsEndsWith (s pat : String) : Bool := pat.data.isSuffixOf s.data

/-- Split a character list at the first occurrence of `pat`: the part
before the match and the part after it, or `none` when `pat` never
occurs. -/
def firstMatchSplit (pat : List Char) : List Char → Option (List Char × List Char)
  | [] => if pat.isEmpty then some ([], []) else none
  | c :: rest =>
    if pat.isPrefixOf (c :: rest) then some ([], (c :: rest).drop pat.length)
    else
      match firstMatchSplit pat rest with
      | some (before, after) => some (c :: before, after)
      | none => none

/-- JavaScript `String.prototype.replace` with a string pattern: replace
only the first occurrence. -/
def replaceFirst (s pat rep : String) : String :=
  match firstMatchSplit pat.data s.data with
  | some (before, after) => ⟨before ++ rep.data ++ after⟩
  | none => s

/-- JavaScript `split(pat)[0]`: the part before the first occurrence of
`pat`, or the whole string when `pat` never occurs. -/
def jsSplitHead (s pat : String) : String :=
  match firstMatchSplit pat.data s.data with
  | some (before, _) => ⟨before⟩
  | none => s

/-- Association-list lookup standing in for JavaScript `Map.get`. -/
def mapGet {κ ν : Type} [BEq κ] (m : List (κ × ν)) (k : κ) : Option ν :=
  (m.find? (fun e => e.1 == k)).map (·.2)

/-- Association-list update standing in for JavaScript `Map.set`
(overwrite the existing key or append a new binding). -/
def mapSet {κ ν : Type} [BEq κ] (m : List (κ × ν)) (k : κ) (v : ν) :
    List (κ × ν) :=
  if (m.find? (fun e => e.1 == k)).isSome then
    m.map (fun e => if e.1 == k then (k, v) else e)
  else
    m ++ [(k, v)]

/-- Embeds `getInstrumentId`: first defined among the three casing aliases. -/
def getInstrumentId (record : EtoroPortfolioPosition) : Option Nat :=
  record.instrumentId <|> record.instrumentID <|> record.InstrumentID

/-- Embeds `getPositionId`: first defined among the three casing aliases. -/
def getPositionId (position : EtoroPortfolioPosition) : Option Nat :=
  position.positionId <|> position.positionID <|> position.PositionID

/-- Embeds `mapAssetClass`: crypto when the symbol has a `/` or ends in
`USD`, otherwise US equity. -/
def mapAssetClass (symbol : String) : String :=
  if jsContainsChar symbol '/' || jsEndsWith (jsToUpper symbol) "USD" then "crypto"
  else "us_equity"

/-- Embeds `parsePosition`: merge a raw position with resolved metadata and
a live rate into the normalized `Position`. JavaScript truthiness checks
(`positionId ? ... : undefined`, `rateCandidate && rateCandidate > 0`,
`costBasis ? ... : 0`) are modelled with the corresponding zero tests. -/
def parsePosition (position : EtoroPortfolioPosition)
    (meta : Option PositionMeta) (rate : Option EtoroRate) : Position :=
  let instrumentId := getInstrumentId position
  let positionId := getPositionId position
  let symbol := match meta with
    | some m => m.symbol
    | none => match instrumentId with
      | some i => if i = 0 then "UNKNOWN" else toString i
      | none => "UNKNOWN"
  let qty := position.units.getD 0
  let openRate := position.openRate.getD 0
  let rateCandidate :=
    (rate.bind EtoroRate.lastExecution) <|> (rate.bind EtoroRate.bid) <|>
      (rate.bind EtoroRate.ask)
  let ratePrice := match rateCandidate with
    | some c => if 0 < c then some c else none
    | none => none
  let currentPrice := position.closeRate.getD (ratePrice.getD openRate)
  let marketValue := currentPrice * qty
  let costBasis := position.amount.getD (openRate * qty)
  let side := if position.isBuy = some false then "short" else "long"
  let rawPnL := position.pnL <|> position.pnl <|> position.PnL <|>
    position.unrealizedPnL
  let computedPnL := (currentPrice - openRate) * qty *
    (if side = "short" then -1 else 1)
  let pl := rawPnL.getD computedPnL
  { position_id := match positionId with
      | some i => if i = 0 then none else some (toString i)
      | none => none
    asset_id := match instrumentId with
      | some i => toString i
      | none => ""
    symbol := symbol
    exchange := match meta.bind PositionMeta.exchangeId with
      | some e => toString e
      | none => "ETORO"
    asset_class := mapAssetClass symbol
    avg_entry_price := openRate
    qty := qty
    side := side
    market_value := marketValue
    cost_basis := costBasis
    unrealized_pl := pl
    unrealized_plpc := if costBasis = 0 then 0 else pl / costBasis
    unrealized_intraday_pl := 0
    unrealized_intraday_plpc := 0
    current_price := currentPrice
    lastday_price := 0
    change_today := 0 }

/-- Embeds `dedupePositions`: drop repeated broker position ids, keeping
positions without a (truthy) id. `seen` is the accumulator set. -/
def dedupePositions (seen : List Nat) :
    List EtoroPortfolioPosition → List EtoroPortfolioPosition
  | [] => []
  | pos :: rest =>
    match getPositionId pos with
    | none => pos :: dedupePositions seen rest
    | some id =>
      if id = 0 then pos :: dedupePositions seen rest
      else if id ∈ seen then dedupePositions seen rest
      else pos :: dedupePositions (id :: seen) rest

/-- Embeds `collectPositions`: direct positions plus every non-empty
mirror's positions, then deduplicated by position id. -/
def collectPositions (response : EtoroPortfolioResponse) :
    List EtoroPortfolioPosition :=
  let direct := (response.clientPortfolio.bind ClientPortfolio.positions).getD []
  let mirrors := (response.clientPortfolio.bind ClientPortfolio.mirrors).getD []
  let fromMirrors := mirrors.flatMap (fun m =>
    match m.positions with
    | some l => if l.length ≠ 0 then l else []
    | none => [])
  dedupePositions [] (direct ++ fromMirrors)

/-- Metadata/rate lookup used inside `getAccount` and `getPositions`:
`instrumentId ? map.get(instrumentId) : undefined` (0 is falsy). -/
def lookupByInstrumentId {ν : Type} (m : List (Nat × ν)) (id? : Option Nat) :
    Option ν :=
  match id? with
  | some i => if i = 0 then none else mapGet m i
  | none => none

/-- Builds the constant-shape account record `getAccount` returns, from the
environment tag and the three computed numbers. -/
def mkAccount (env : String) (credit equity longMarketValue : ℚ) : Account :=
  { id := "etoro-" ++ env
    account_number := "etoro-" ++ env
    status := "ACTIVE"
    currency := "USD"
    cash := credit
    buying_power := credit
    regt_buying_power := credit
    daytrading_buying_power := credit
    equity := equity
    last_equity := equity
    long_market_value := longMarketValue
    short_market_value := 0
    portfolio_value := equity
    pattern_day_trader := false
    trading_blocked := false
    transfers_blocked := false
    account_blocked := false
    multiplier := "1"
    shorting_enabled := false
    maintenance_margin := 0
    initial_margin := 0
    daytrade_count := 0 }

/-- Embeds `getAccount`. The four parameters are the outcomes of its
network interactions: the cached portfolio fetch, the metadata resolution,
the rates fetch, and — only reached when the portfolio fetch fails — the
`/pnl` summary fetch. Metadata and rate failures are swallowed (empty
maps); a portfolio failure routes to the pnl fallback; a pnl failure
propagates (there is no second `catch`). -/
def getAccount (env : String)
    (portfolioResult : Except ErrorCode EtoroPortfolioResponse)
    (metaResult : Except ErrorCode (List (Nat × PositionMeta)))
    (ratesResult : Except ErrorCode (List (Nat × EtoroRate)))
    (pnlResult : Except ErrorCode EtoroPortfolioResponse) :
    Except ErrorCode Account :=
  match portfolioResult with
  | .ok response =>
    let credit := (response.clientPortfolio.bind ClientPortfolio.credit).getD 0
    let rawPositions := collectPositions response
    let meta := match metaResult with
      | .ok m => m
      | .error _ => []
    let rates := match ratesResult with
      | .ok r => r
      | .error _ => []
    let positions := rawPositions.map (fun pos =>
      let instrumentId := getInstrumentId pos
      parsePosition pos (lookupByInstrumentId meta instrumentId)
        (lookupByInstrumentId rates instrumentId))
    let longMarketValue := positions.foldl (fun sum pos => sum + pos.market_value) 0
    let equity := credit + longMarketValue
    .ok (mkAccount env credit equity longMarketValue)
  | .error _ =>
    match pnlResult with
    | .ok response =>
      let credit := (response.clientPortfolio.bind ClientPortfolio.credit).getD 0
      let unrealizedPnL :=
        (response.clientPortfolio.bind ClientPortfolio.unrealizedPnL).getD 0
      let equity := credit + unrealizedPnL
      .ok (mkAccount env credit equity (max (equity - credit) 0))
    | .error e => .error e

/-- Embeds the units computation of `closePosition` (`trading.ts:287-293`):
`min(qty, total)` when a quantity is passed, else
`max(min(percentage/100 × total, total), 0)` when a percentage is passed,
else `null` (close the whole position). -/
def closePositionUnits (totalUnits : ℚ) (qty percentage : Option ℚ) :
    Option ℚ :=
  match qty with
  | some q => some (min q totalUnits)
  | none =>
    match percentage with
    | some p => some (max (min ((p / 100) * totalUnits) totalUnits) 0)
    | none => none

/-- Embeds the reference-price selection of `resolveUnits`
(`trading.ts:549`): ask for buys, bid for sells, falling back to the
last-execution price when the preferred side is absent. -/
def referencePrice (side : String) (rate : Option EtoroRate) : Option ℚ :=
  if side = "buy" then
    (rate.bind EtoroRate.ask) <|> (rate.bind EtoroRate.lastExecution)
  else
    (rate.bind EtoroRate.bid) <|> (rate.bind EtoroRate.lastExecution)

/-- Embeds `resolveUnits` (`trading.ts:539-555`): a given quantity wins; a
missing notional is invalid input; otherwise units are
`notional / referencePrice`, failing when no usable (positive) price exists
(`!price || price <= 0`). `rateMap` is the cached rate map the code reads. -/
def resolveUnits (instrumentId : Nat) (params : OrderParams)
    (rateMap : List (Nat × EtoroRate)) : Except ErrorCode ℚ :=
  match params.qty with
  | some q => .ok q
  | none =>
    match params.notional with
    | none => .error .INVALID_INPUT
    | some notional =>
      match referencePrice params.side (mapGet rateMap instrumentId) with
      | none => .error .PROVIDER_ERROR
      | some price =>
        if price ≤ 0 then .error .PROVIDER_ERROR
        else .ok (notional / price)

/-- One item of the `/market-data/search` response (`EtoroSearchItem`),
with its many symbol-field aliases. -/
structure EtoroSearchItem where
  instrumentId : Option Nat := none
  instrumentID : Option Nat := none
  internalSymbolFull : Option String := none
  symbolFull : Option String := none
  fullSymbolName : Option String := none
  displayName : Option String := none
  name : Option String := none
  typeName : Option String := none
deriving DecidableEq, Repr

/-- The optional `instruments` wrapper of a search response. -/
structure EtoroSearchInstruments where
  items : Option (List EtoroSearchItem) := none
deriving DecidableEq, Repr

/-- The `/market-data/search` response envelope (`EtoroSearchResponse`). -/
structure EtoroSearchResponse where
  items : Option (List EtoroSearchItem) := none
  instruments : Option EtoroSearchInstruments := none
deriving DecidableEq, Repr

/-- Cached instrument metadata (`CachedInstrument` in `instruments.ts`). -/
structure CachedInstrument where
  symbol : String
  instrumentTypeId : Option Nat := none
  exchangeId : Option Nat := none
  updatedAt : Int
deriving DecidableEq, Repr

/-- A `symbolToId` cache value (`{ id; updatedAt }`). -/
structure SymbolMapping where
  id : Nat
  updatedAt : Int
deriving DecidableEq, Repr

/-- Symbol-mapping TTL of the instrument cache (`ttlMs = 30 * 60 * 1000`). -/
def instrumentTtlMs : Int := 30 * 60 * 1000

/-- The mutable maps of `EtoroInstrumentCache`, as association lists. -/
structure InstrumentCacheState where
  symbolToId : List (String × SymbolMapping)
  idToMeta : List (Nat × CachedInstrument)
deriving DecidableEq, Repr

/-- A freshly constructed instrument cache: both maps empty. -/
def emptyInstrumentCache : InstrumentCacheState := ⟨[], []⟩

/-- Embeds `extractItems`: prefer `items`, else `instruments.items`, else
the empty list. -/
def extractItems (response : EtoroSearchResponse) : List EtoroSearchItem :=
  match response.items with
  | some items => items
  | none =>
    match response.instruments.bind EtoroSearchInstruments.items with
    | some items => items
    | none => []

/-- Embeds `extractInstrumentId`: first defined of the two casing aliases. -/
def extractInstrumentId (item : EtoroSearchItem) : Option Nat :=
  item.instrumentId <|> item.instrumentID

/-- Embeds `extractSymbol`: first defined of the five symbol aliases,
uppercased; an empty string is falsy and yields `null`. -/
def extractSymbol (item : EtoroSearchItem) : Option String :=
  match item.internalSymbolFull <|> item.symbolFull <|> item.fullSymbolName <|>
      item.displayName <|> item.name with
  | some value => if value = "" then none else some (jsToUpper value)
  | none => none

/-- Embeds `searchExactSymbol`, with the broker search endpoint abstracted
as the pure response function `resp` (the mocked endpoint of the test
harness): parse the response, prefer an exact symbol match over the first
item, and drop items without a (truthy) instrument id. -/
def searchExactSymbol (resp : String → EtoroSearchResponse) (symbol : String) :
    Option (Nat × String) :=
  let items := extractItems (resp symbol)
  let direct := items.find? (fun item => extractSymbol item == some symbol)
  match direct <|> items.head? with
  | none => none
  | some item =>
    match extractInstrumentId item with
    | none => none
    | some id =>
      if id = 0 then none
      else some (id, (extractSymbol item).getD symbol)

/-- Append each element not yet present — JavaScript `Set` insertion order. -/
def dedupKeepFirst (l : List String) : List String :=
  l.foldl (fun acc x => if x ∈ acc then acc else acc ++ [x]) []

/-- Embeds `buildSymbolCandidates`: the symbol itself; for a separator
symbol also the separator-stripped form and the prefix before the
separator; for a `USD`-suffixed symbol also the suffix-stripped form and a
separator-inserted form. -/
def buildSymbolCandidates (symbol : String) : List String :=
  let extra :=
    if jsContainsChar symbol '/' then
      [replaceFirst symbol "/" "", jsSplitHead symbol "/"]
    else if jsEndsWith symbol "USD" then
      [replaceFirst symbol "USD" "", symbol ++ "/USD"]
    else []
  dedupKeepFirst (symbol :: extra)

/-- Embeds `storeMapping`: record the symbol→id mapping under the (matched
candidate) symbol, and when a (truthy) display symbol is known also record
id→metadata. -/
def storeMapping (st : InstrumentCacheState) (now : Int) (symbol : String)
    (id : Nat) (displaySymbol : Option String) : InstrumentCacheState :=
  let normalized := jsToUpper symbol
  let st1 := { st with symbolToId := mapSet st.symbolToId normalized ⟨id, now⟩ }
  match displaySymbol with
  | some ds =>
    if ds = "" then st1
    else { st1 with idToMeta := mapSet st1.idToMeta id ⟨jsToUpper ds, none, none, now⟩ }
  | none => st1

/-- The candidate loop of `resolveInstrumentId`: try each candidate against
the search endpoint in order; the first match wins and is cached. Also
returns the list of candidates actually sent to the broker (the search
call trace). -/
def tryCandidates (resp : String → EtoroSearchResponse)
    (st : InstrumentCacheState) (now : Int) :
    List String → Except ErrorCode Nat × InstrumentCacheState × List String
  | [] => (.error .NOT_FOUND, st, [])
  | c :: rest =>
    match searchExactSymbol resp c with
    | some hit => (.ok hit.1, storeMapping st now c hit.1 (some hit.2), [c])
    | none =>
      let r := tryCandidates resp st now rest
      (r.1, r.2.1, c :: r.2.2)

/-- Embeds `resolveInstrumentId`: normalize, serve a fresh symbol→id cache
hit, otherwise run the candidate search loop. Returns the result, the
updated cache state, and the trace of search calls made. -/
def resolveInstrumentId (resp : String → EtoroSearchResponse)
    (st : InstrumentCacheState) (now : Int) (symbol : String) :
    Except ErrorCode Nat × InstrumentCacheState × List String :=
  let normalized := jsToUpper (jsTrim symbol)
  match mapGet st.symbolToId normalized with
  | some cached =>
    if now - cached.updatedAt < instrumentTtlMs then (.ok cached.id, st, [])
    else tryCandidates resp st now (buildSymbolCandidates normalized)
  | none => tryCandidates resp st now (buildSymbolCandidates normalized)

end Etoro

namespace Risk

/-- Modelled from the spec: the singleton risk state of the
RiskPolicyEngine (§4.6, `risk_state` table). The engine's own source is
not part of the provided material; only its schema, error codes and cron
consumers are. -/
structure RiskState where
  killSwitchActive : Bool
  killSwitchReason : Option String := none
  dailyLossUsd : ℚ := 0
  dailyLossResetAt : Option Int := none
  cooldownUntil : Option Int := none
deriving DecidableEq, Repr

/-- Modelled from the spec: the risk gate in front of order creation
(§4.6: "while active, `createOrder` must short-circuit with a
`KILL_SWITCH_ACTIVE` error before any network call"). `submit` is the rest
of the order path; it returns its outcome together with the number of
broker-transport calls it makes. The gate runs before `submit`, so an
active kill switch yields the error with zero transport calls. -/
def gatedCreateOrder {ω : Type} (risk : RiskState) (params : Etoro.OrderParams)
    (submit : Etoro.OrderParams → Except ErrorCode ω × Nat) :
    Except ErrorCode ω × Nat :=
  if risk.killSwitchActive then (.error .KILL_SWITCH_ACTIVE, 0)
  else submit params

/-- Modelled from the spec: an `OrderApproval` record (§3, §4.6 and the
`order_approvals` schema). `usedAt` is null until the token is consumed. -/
structure OrderApproval where
  id : String
  previewHash : String
  orderParamsJson : String
  policyResultJson : String
  approvalToken : String
  expiresAt : Int
  usedAt : Option Int := none
deriving DecidableEq, Repr

/-- Modelled from the spec: presenting an approval token (§4.6). An
unknown or already-used token fails with `INVALID_APPROVAL_TOKEN`; an
expired one with `EXPIRED_APPROVAL_TOKEN`; otherwise `usedAt` is stamped
atomically with the broker submission (the call counter increments).
Returns the outcome, the updated store, and the new broker-call count. -/
def presentToken (store : List OrderApproval) (now : Int) (token : String)
    (brokerCalls : Nat) :
    Except ErrorCode Unit × List OrderApproval × Nat :=
  match store.find? (fun a => a.approvalToken == token) with
  | none => (.error .INVALID_APPROVAL_TOKEN, store, brokerCalls)
  | some a =>
    if a.usedAt.isSome then (.error .INVALID_APPROVAL_TOKEN, store, brokerCalls)
    else if a.expiresAt ≤ now then
      (.error .EXPIRED_APPROVAL_TOKEN, store, brokerCalls)
    else
      (.ok (),
        store.map (fun b =>
          if b.approvalToken == token then { b with usedAt := some now } else b),
        brokerCalls + 1)

end Risk

namespace Fixtures

open Etoro Risk

/-- The concrete order parameters of the notional test scenario:
`{symbol: "AAPL", notional: 100, side: "buy"}`. -/
def aaplNotionalParams : OrderParams :=
  { symbol := "AAPL", side := "buy", type := "market", notional := some 100 }

/-- A mocked rate with ask price 101. -/
def appleMockRate : EtoroRate := { ask := some 101 }

/-- A mocked search endpoint that matches only the candidate `BTCUSD`,
mapping it to instrument id 100001. -/
def btcSearchResponses (s : String) : EtoroSearchResponse :=
  if s = "BTCUSD" then
    { items := some [{ instrumentId := some 100001,
                       internalSymbolFull := some "BTCUSD" }] }
  else { items := some [] }

/-- A risk state with the kill switch engaged by an operator. -/
def killedRisk : RiskState :=
  { killSwitchActive := true, killSwitchReason := some "operator action" }

/-- Concrete order parameters for the kill-switch scenario. -/
def killSwitchOrderParams : OrderParams :=
  { symbol := "AAPL", side := "buy", type := "market", qty := some 1 }

/-- A mocked broker submission path: succeeds after 3 transport calls. -/
def mockSubmit : OrderParams → Except ErrorCode Nat × Nat := fun _ => (.ok 7, 3)

/-- A concrete unused approval expiring at time 1000. -/
def sampleApproval : OrderApproval :=
  { id := "ap-1", previewHash := "h", orderParamsJson := "{}",
    policyResultJson := "{}", approvalToken := "tok-1", expiresAt := 1000 }

/-- An approval store holding just `sampleApproval`. -/
def sampleStore : List OrderApproval := [sampleApproval]

/-- An empty-cache slot whose only fetch (number 0) is still in flight. -/
def pendingEmptySlot : TTLCache.Slot Nat :=
  { cache := none, pendingFetch := some 0, fetchesStarted := 1 }

end Fixtures

/-! ## Theorems -/

namespace TTLCache

/-- While a fetch is in flight and the cache has no fresh entry, a request
shares that pending fetch and leaves the slot unchanged. -/
theorem requestStep_pending {α : Type} (s : Slot α) (u : Int) (fid : Nat)
    (hp : s.pendingFetch = some fid) (hstale : StaleAt s u) :
    requestStep s u = (.joined fid, s) := by
  unfold requestStep requestMiss StaleAt at *
  cases hc : s.cache with
  | none => simp [hc, hp]
  | some entry =>
    obtain ⟨d, exp⟩ := entry
    rw [hc] at hstale
    simp [hc, hp, not_lt.mpr hstale]

/-- A run of requests against a slot with an in-flight fetch and no fresh
entry: every caller joins the same fetch and the slot never changes. -/
theorem requestSeq_pending {α : Type} (s : Slot α) (fid : Nat) (ts : List Int)
    (hp : s.pendingFetch = some fid) (hstale : ∀ u ∈ ts, StaleAt s u) :
    requestSeq s ts = (ts.map (fun _ => CacheOutcome.joined fid), s) := by
  induction ts with
  | nil => simp [requestSeq]
  | cons u rest ih =>
    have hstep := requestStep_pending s u fid hp (hstale u (by simp))
    simp [requestSeq, hstep, ih (fun v hv => hstale v (by simp [hv]))]

/-- C3. For all concurrent callers requesting the same cache key while no
fresh entry exists (and no fetch is yet in flight), the first caller starts
the single underlying fetch and every later caller receives that same
pending fetch, so exactly one fetch is started for the whole group. -/
theorem cache_concurrent_fetch_once {α : Type} (s : Slot α) (t : Int)
    (ts : List Int) (hstale : StaleAt s t) (hnp : s.pendingFetch = none)
    (hts : ∀ u ∈ ts, t ≤ u) :
    (requestStep s t).1 = CacheOutcome.started s.fetchesStarted ∧
    (requestSeq (requestStep s t).2 ts).1 =
      ts.map (fun _ => CacheOutcome.joined s.fetchesStarted) ∧
    (requestSeq (requestStep s t).2 ts).2 =
      { cache := s.cache, pendingFetch := some s.fetchesStarted,
        fetchesStarted := s.fetchesStarted + 1 } := by
  have hmiss : requestStep s t =
      (CacheOutcome.started s.fetchesStarted,
        { s with pendingFetch := some s.fetchesStarted,
                 fetchesStarted := s.fetchesStarted + 1 }) := by
    unfold requestStep requestMiss StaleAt at *
    cases hc : s.cache with
    | none => simp [hc, hnp]
    | some entry =>
      obtain ⟨d, exp⟩ := entry
      rw [hc] at hstale
      simp [hc, hnp, not_lt.mpr hstale]
  have hstale' : ∀ u ∈ ts, StaleAt (requestStep s t).2 u := by
    intro u hu
    rw [hmiss]
    unfold StaleAt at *
    cases hc : s.cache with
    | none => simp [hc]
    | some entry =>
      obtain ⟨d, exp⟩ := entry
      rw [hc] at hstale
      simp [hc]
      exact le_trans hstale (hts u hu)
  have hseq := requestSeq_pending (requestStep s t).2 s.fetchesStarted ts
    (by rw [hmiss]) hstale'
  refine ⟨by rw [hmiss], by rw [hseq], by rw [hseq, hmiss]⟩

/-- Witness for C3: one stale slot, a first caller at time 0 and three more
callers while the fetch is in flight. -/
theorem cache_concurrent_fetch_once_witness :
    (requestStep (emptySlot Nat) 0).1 = CacheOutcome.started 0 ∧
    (requestSeq (requestStep (emptySlot Nat) 0).2 [0, 1, 5]).1 =
      [0, 1, 5].map (fun _ => CacheOutcome.joined 0) ∧
    (requestSeq (requestStep (emptySlot Nat) 0).2 [0, 1, 5]).2 =
      { cache := none, pendingFetch := some 0, fetchesStarted := 1 } :=
  cache_concurrent_fetch_once (emptySlot Nat) 0 [0, 1, 5] trivial rfl
    (by intro u hu; fin_cases hu <;> decide)

/-- C5. A failed fetch is not cached: settling the in-flight fetch with an
error leaves the cache entry unpopulated and clears the in-flight marker,
and the next caller starts a fresh fetch instead of observing a cached
failure. -/
theorem cache_failure_not_cached {α : Type} (s : Slot α) (now t : Int)
    (e : ErrorCode) (ttl : Int) (hc : s.cache = none) :
    (settleStep s now (Except.error e) ttl).cache = none ∧
    (settleStep s now (Except.error e) ttl).pendingFetch = none ∧
    (requestStep (settleStep s now (Except.error e) ttl) t).1 =
      CacheOutcome.started s.fetchesStarted ∧
    (requestStep (settleStep s now (Except.error e) ttl) t).2.pendingFetch =
      some s.fetchesStarted := by
  refine ⟨by simp [settleStep, hc], by simp [settleStep], ?_, ?_⟩ <;>
    simp [settleStep, requestStep, requestMiss, hc]

/-- Witness for C5: the portfolio fetch fails while the cache is empty; the
next caller at time 7 starts fetch number 1. -/
theorem cache_failure_not_cached_witness :
    (settleStep Fixtures.pendingEmptySlot 3
        (Except.error ErrorCode.PROVIDER_ERROR) 15000).cache = none ∧
    (settleStep Fixtures.pendingEmptySlot 3
        (Except.error ErrorCode.PROVIDER_ERROR) 15000).pendingFetch = none ∧
    (requestStep (settleStep Fixtures.pendingEmptySlot 3
        (Except.error ErrorCode.PROVIDER_ERROR) 15000) 7).1
      = CacheOutcome.started 1 ∧
    (requestStep (settleStep Fixtures.pendingEmptySlot 3
        (Except.error ErrorCode.PROVIDER_ERROR) 15000) 7).2.pendingFetch
      = some 1 :=
  cache_failure_not_cached Fixtures.pendingEmptySlot 3 7
    ErrorCode.PROVIDER_ERROR 15000 rfl

end TTLCache

namespace Risk

/-- C1. While the kill switch is active, the gated `createOrder` path
short-circuits with `KILL_SWITCH_ACTIVE` and the broker transport receives
zero calls, whatever the rest of the order path would have done. -/
theorem createOrder_kill_switch_short_circuit {ω : Type} (risk : RiskState)
    (params : Etoro.OrderParams)
    (submit : Etoro.OrderParams → Except ErrorCode ω × Nat)
    (h : risk.killSwitchActive = true) :
    gatedCreateOrder risk params submit =
      (Except.error ErrorCode.KILL_SWITCH_ACTIVE, 0) := by
  simp [gatedCreateOrder, h]

/-- Witness for C1: an engaged kill switch blocks a concrete market order
even though the submission path would make 3 transport calls. -/
theorem createOrder_kill_switch_short_circuit_witness :
    gatedCreateOrder Fixtures.killedRisk Fixtures.killSwitchOrderParams
      Fixtures.mockSubmit = (Except.error ErrorCode.KILL_SWITCH_ACTIVE, 0) :=
  createOrder_kill_switch_short_circuit Fixtures.killedRisk
    Fixtures.killSwitchOrderParams Fixtures.mockSubmit rfl

/-- Marking the found approval as used updates exactly the approval the
lookup returns: a later lookup of the same token sees `usedAt` set. -/
theorem find?_markUsed (store : List OrderApproval) (token : String)
    (now : Int) (a : OrderApproval)
    (h : store.find? (fun b => b.approvalToken == token) = some a) :
    (store.map (fun b =>
        if b.approvalToken == token then { b with usedAt := some now }
        else b)).find? (fun b => b.approvalToken == token) =
      some { a with usedAt := some now } := by
  induction store with
  | nil => simp at h
  | cons hd tl ih =>
    rw [List.find?_cons] at h
    cases hh : (hd.approvalToken == token) with
    | true =>
      rw [hh] at h
      have h2 : some hd = some a := h
      injection h2 with h2
      subst h2
      have heq : hd.approvalToken = token := by simpa using hh
      subst heq
      simp [List.find?_cons]
    | false =>
      rw [hh] at h
      have h2 : tl.find? (fun b => b.approvalToken == token) = some a := h
      have hne : ¬ hd.approvalToken = token := by simpa using hh
      rw [List.map_cons, List.find?_cons]
      simp only [hh, hne, if_false, ite_false, Bool.false_eq_true]
      exact ih h2

/-- C4. An approval token is consumed at most once: a valid, unexpired,
unused token succeeds with the broker called exactly once and `usedAt`
stamped; presenting the same token again fails with
`INVALID_APPROVAL_TOKEN` without another broker call or store change; and
presenting an expired unused token fails with `EXPIRED_APPROVAL_TOKEN`
without any broker call. -/
theorem approval_token_single_use (store : List OrderApproval) (now : Int)
    (token : String) (calls : Nat) (a : OrderApproval)
    (hfind : store.find? (fun b => b.approvalToken == token) = some a)
    (hunused : a.usedAt = none) (hexp : now < a.expiresAt) :
    (presentToken store now token calls).1 = Except.ok () ∧
    (presentToken store now token calls).2.1.find?
        (fun b => b.approvalToken == token) =
      some { a with usedAt := some now } ∧
    (presentToken store now token calls).2.2 = calls + 1 ∧
    (∀ later laterCalls,
        presentToken (presentToken store now token calls).2.1 later token
            laterCalls =
          (Except.error ErrorCode.INVALID_APPROVAL_TOKEN,
            (presentToken store now token calls).2.1, laterCalls)) ∧
    (∀ (store₂ : List OrderApproval) (now₂ : Int) (calls₂ : Nat)
        (b : OrderApproval),
        store₂.find? (fun c => c.approvalToken == token) = some b →
        b.usedAt = none → b.expiresAt ≤ now₂ →
        presentToken store₂ now₂ token calls₂ =
          (Except.error ErrorCode.EXPIRED_APPROVAL_TOKEN, store₂, calls₂)) := by
  have hrun : presentToken store now token calls =
      (Except.ok (),
        store.map (fun b =>
          if b.approvalToken == token then { b with usedAt := some now }
          else b),
        calls + 1) := by
    simp [presentToken, hfind, hunused, not_le.mpr hexp]
  have hmark := find?_markUsed store token now a hfind
  refine ⟨by rw [hrun], by rw [hrun]; exact hmark, by rw [hrun], ?_, ?_⟩
  · intro later laterCalls
    rw [hrun]
    simp only [presentToken]
    rw [hmark]
    simp
  · intro store₂ now₂ calls₂ b hfind₂ hb hexp₂
    simp [presentToken, hfind₂, hb, hexp₂]

/-- Witness for C4: the sample token succeeds at time 10 and fails on its
second presentation at time 20; an expired copy fails at time 2000. -/
theorem approval_token_single_use_witness :
    (presentToken Fixtures.sampleStore 10 "tok-1" 0).1 = Except.ok () ∧
    (presentToken Fixtures.sampleStore 10 "tok-1" 0).2.1.find?
        (fun b => b.approvalToken == "tok-1") =
      some { Fixtures.sampleApproval with usedAt := some 10 } ∧
    (presentToken Fixtures.sampleStore 10 "tok-1" 0).2.2 = 0 + 1 ∧
    (∀ later laterCalls,
        presentToken (presentToken Fixtures.sampleStore 10 "tok-1" 0).2.1
            later "tok-1" laterCalls =
          (Except.error ErrorCode.INVALID_APPROVAL_TOKEN,
            (presentToken Fixtures.sampleStore 10 "tok-1" 0).2.1,
            laterCalls)) ∧
    (∀ (store₂ : List OrderApproval) (now₂ : Int) (calls₂ : Nat)
        (b : OrderApproval),
        store₂.find? (fun c => c.approvalToken == "tok-1") = some b →
        b.usedAt = none → b.expiresAt ≤ now₂ →
        presentToken store₂ now₂ "tok-1" calls₂ =
          (Except.error ErrorCode.EXPIRED_APPROVAL_TOKEN, store₂, calls₂)) :=
  approval_token_single_use Fixtures.sampleStore 10 "tok-1" 0
    Fixtures.sampleApproval (by decide) rfl (by decide)

end Risk

namespace Etoro

/-- C7. The units `closePosition` deducts: `min(qty, total)` when a
quantity is given, `percentage/100 × total` clamped to `[0, total]` when a
percentage is given; on a position of 10 units, 50 % gives 5, qty 3 gives
3 and qty 20 clamps to 10. -/
theorem closePosition_units_clamped :
    (∀ total q : ℚ, closePositionUnits total (some q) none =
        some (min q total)) ∧
    (∀ total p : ℚ, closePositionUnits total none (some p) =
        some (max (min ((p / 100) * total) total) 0)) ∧
    closePositionUnits 10 none (some 50) = some 5 ∧
    closePositionUnits 10 (some 3) none = some 3 ∧
    closePositionUnits 10 (some 20) none = some 10 :=
  ⟨fun _ _ => rfl, fun _ _ => rfl,
    by norm_num [closePositionUnits, min_def, max_def],
    by norm_num [closePositionUnits, min_def],
    by norm_num [closePositionUnits, min_def]⟩

/-- C8. When an order specifies a notional amount and no quantity, the
units are `notional / referencePrice`, where the reference price is the
ask for buys and the bid for sells, falling back to the last-execution
price, and the call fails with a provider error when no usable positive
price exists; notional 100 against a mocked ask of 101 gives 100/101
(≈ 0.990099). -/
theorem resolveUnits_notional_reference_price (instrumentId : Nat)
    (params : OrderParams) (rateMap : List (Nat × EtoroRate)) (n : ℚ)
    (hq : params.qty = none) (hn : params.notional = some n) :
    (resolveUnits instrumentId params rateMap =
      match referencePrice params.side (mapGet rateMap instrumentId) with
      | none => Except.error ErrorCode.PROVIDER_ERROR
      | some price =>
        if price ≤ 0 then Except.error ErrorCode.PROVIDER_ERROR
        else Except.ok (n / price)) ∧
    (∀ r : EtoroRate,
        referencePrice "buy" (some r) = (r.ask <|> r.lastExecution) ∧
        referencePrice "sell" (some r) = (r.bid <|> r.lastExecution)) ∧
    resolveUnits 999 Fixtures.aaplNotionalParams
        [(999, Fixtures.appleMockRate)] = Except.ok (100 / 101) ∧
    |(100 : ℚ) / 101 - 990099 / 1000000| < 1 / 1000000 := by
  refine ⟨?_, fun r => ⟨rfl, rfl⟩, ?_, by rw [abs_sub_lt_iff]; constructor <;> norm_num⟩
  · simp [resolveUnits, hq, hn]
  · simp only [resolveUnits, Fixtures.aaplNotionalParams, Fixtures.appleMockRate,
      referencePrice, mapGet, List.find?]
    norm_num

/-- Witness for C8: the mocked scenario computes 100/101 units. -/
theorem resolveUnits_notional_reference_price_witness :
    resolveUnits 999 Fixtures.aaplNotionalParams
        [(999, Fixtures.appleMockRate)] = Except.ok (100 / 101) :=
  (resolveUnits_notional_reference_price 999 Fixtures.aaplNotionalParams
    [(999, Fixtures.appleMockRate)] 100 rfl rfl).2.2.1

/-- Folding position market values from an accumulator equals the
accumulator plus the sum of the mapped market values. -/
theorem foldl_market_value (l : List Position) (init : ℚ) :
    l.foldl (fun sum pos => sum + pos.market_value) init =
      init + (l.map (fun pos => pos.market_value)).sum := by
  induction l generalizing init with
  | nil => simp
  | cons hd tl ih =>
    simp only [List.foldl_cons, List.map_cons, List.sum_cons]
    rw [ih]
    ring

/-- C6 counterexample. When both the portfolio fetch and the profit/loss
summary fetch fail, `getAccount` does fail outright (the fallback has no
second catch), contradicting the claim that it never fails. -/
theorem getAccount_both_sources_fail_counterexample :
    getAccount "demo" (Except.error ErrorCode.PROVIDER_ERROR) (Except.ok [])
      (Except.ok []) (Except.error ErrorCode.PROVIDER_ERROR) =
      Except.error ErrorCode.PROVIDER_ERROR := rfl

/-- C6 (amended). `getAccount` fails only when both data sources fail:
when the portfolio fetch succeeds it returns an account whose equity is
cash/credit plus the summed market value of all collected positions; when
the portfolio fetch fails but the profit/loss summary succeeds, equity is
credit plus the reported unrealized profit/loss; when both fail the
error of the summary fetch propagates. -/
theorem getAccount_equity_two_sources (env : String)
    (resp pnlResp : EtoroPortfolioResponse)
    (metaResult : Except ErrorCode (List (Nat × PositionMeta)))
    (ratesResult : Except ErrorCode (List (Nat × EtoroRate)))
    (pnlResult : Except ErrorCode EtoroPortfolioResponse) (e : ErrorCode) :
    (∃ acct : Account,
        getAccount env (Except.ok resp) metaResult ratesResult pnlResult =
          Except.ok acct ∧
        acct.cash = (resp.clientPortfolio.bind ClientPortfolio.credit).getD 0 ∧
        acct.equity = acct.cash + acct.long_market_value ∧
        acct.long_market_value = ((collectPositions resp).map (fun pos =>
            (parsePosition pos
              (lookupByInstrumentId
                (match metaResult with | .ok m => m | .error _ => [])
                (getInstrumentId pos))
              (lookupByInstrumentId
                (match ratesResult with | .ok r => r | .error _ => [])
                (getInstrumentId pos))).market_value)).sum) ∧
    (∃ acct : Account,
        getAccount env (Except.error e) metaResult ratesResult
            (Except.ok pnlResp) = Except.ok acct ∧
        acct.equity =
          (pnlResp.clientPortfolio.bind ClientPortfolio.credit).getD 0 +
            (pnlResp.clientPortfolio.bind ClientPortfolio.unrealizedPnL).getD 0) ∧
    getAccount env (Except.error e) metaResult ratesResult (Except.error e) =
      Except.error e := by
  refine ⟨⟨_, rfl, rfl, rfl, ?_⟩, ⟨_, rfl, rfl⟩, rfl⟩
  show List.foldl _ 0 _ = _
  rw [foldl_market_value, zero_add, List.map_map]
  rfl

/-- The symbol→id map written by `storeMapping` is the same whether or not
a display symbol accompanies the match. -/
theorem storeMapping_symbolToId (st : InstrumentCacheState) (now : Int)
    (symbol : String) (id : Nat) (displaySymbol : Option String) :
    (storeMapping st now symbol id displaySymbol).symbolToId =
      mapSet st.symbolToId (jsToUpper symbol) ⟨id, now⟩ := by
  unfold storeMapping
  cases displaySymbol with
  | none => rfl
  | some ds =>
    by_cases hds : ds = ""
    · simp [hds]
    · simp [hds]

/-- C9. `resolveInstrumentId "BTC/USD"` and `resolveInstrumentId "BTCUSD"`
resolve to the same instrument id when the broker search matches the shared
separator-stripped base candidate `BTCUSD` (and has no direct match for
`BTC/USD`): both candidate lists contain `BTCUSD`, tried in order until the
first match. -/
theorem resolveInstrumentId_pair_notation_agree
    (resp : String → EtoroSearchResponse) (now : Int) (id : Nat)
    (sym : String)
    (h1 : searchExactSymbol resp "BTC/USD" = none)
    (h2 : searchExactSymbol resp "BTCUSD" = some (id, sym)) :
    (resolveInstrumentId resp emptyInstrumentCache now "BTC/USD").1 =
      Except.ok id ∧
    (resolveInstrumentId resp emptyInstrumentCache now "BTCUSD").1 =
      Except.ok id := by
  have e1 : resolveInstrumentId resp emptyInstrumentCache now "BTC/USD" =
      tryCandidates resp emptyInstrumentCache now ["BTC/USD", "BTCUSD", "BTC"] :=
    rfl
  have e2 : resolveInstrumentId resp emptyInstrumentCache now "BTCUSD" =
      tryCandidates resp emptyInstrumentCache now
        ["BTCUSD", "BTC", "BTCUSD/USD"] := rfl
  constructor
  · rw [e1]
    simp [tryCandidates, h1, h2]
  · rw [e2]
    simp [tryCandidates, h2]

/-- Witness for C9: with the mocked search responses both notations resolve
to instrument id 100001. -/
theorem resolveInstrumentId_pair_notation_agree_witness :
    (resolveInstrumentId Fixtures.btcSearchResponses emptyInstrumentCache 0
        "BTC/USD").1 = Except.ok 100001 ∧
    (resolveInstrumentId Fixtures.btcSearchResponses emptyInstrumentCache 0
        "BTCUSD").1 = Except.ok 100001 :=
  resolveInstrumentId_pair_notation_agree Fixtures.btcSearchResponses 0
    100001 "BTCUSD" rfl rfl

/-- C10. When resolution of `BTC/USD` succeeds via the different candidate
`BTCUSD`, the symbol→id mapping is stored under `BTCUSD` only; an
immediately repeated `resolveInstrumentId "BTC/USD"` (same clock, well
inside the 30-minute TTL) misses the symbol→id cache and performs the same
broker search sequence again. -/
theorem resolveInstrumentId_alias_not_cached
    (resp : String → EtoroSearchResponse) (now : Int) (id : Nat)
    (sym : String)
    (h1 : searchExactSymbol resp "BTC/USD" = none)
    (h2 : searchExactSymbol resp "BTCUSD" = some (id, sym)) :
    (resolveInstrumentId resp emptyInstrumentCache now "BTC/USD").2.2 =
      ["BTC/USD", "BTCUSD"] ∧
    mapGet (resolveInstrumentId resp emptyInstrumentCache now
        "BTC/USD").2.1.symbolToId "BTC/USD" = none ∧
    mapGet (resolveInstrumentId resp emptyInstrumentCache now
        "BTC/USD").2.1.symbolToId "BTCUSD" = some ⟨id, now⟩ ∧
    (resolveInstrumentId resp
        (resolveInstrumentId resp emptyInstrumentCache now "BTC/USD").2.1
        now "BTC/USD").2.2 = ["BTC/USD", "BTCUSD"] ∧
    (resolveInstrumentId resp
        (resolveInstrumentId resp emptyInstrumentCache now "BTC/USD").2.1
        now "BTC/USD").1 = Except.ok id := by
  have hsymTo : (storeMapping emptyInstrumentCache now "BTCUSD" id
      (some sym)).symbolToId = [("BTCUSD", ⟨id, now⟩)] := by
    rw [storeMapping_symbolToId]
    rfl
  have hcall1 : resolveInstrumentId resp emptyInstrumentCache now "BTC/USD" =
      (Except.ok id,
        storeMapping emptyInstrumentCache now "BTCUSD" id (some sym),
        ["BTC/USD", "BTCUSD"]) := by
    have e1 : resolveInstrumentId resp emptyInstrumentCache now "BTC/USD" =
        tryCandidates resp emptyInstrumentCache now
          ["BTC/USD", "BTCUSD", "BTC"] := rfl
    rw [e1]
    simp [tryCandidates, h1, h2]
  have hmiss : mapGet (storeMapping emptyInstrumentCache now "BTCUSD" id
      (some sym)).symbolToId (jsToUpper (jsTrim "BTC/USD")) = none := by
    rw [hsymTo]
    rfl
  have hcand : buildSymbolCandidates (jsToUpper (jsTrim "BTC/USD")) =
      ["BTC/USD", "BTCUSD", "BTC"] := rfl
  have hcall2 : resolveInstrumentId resp
      (storeMapping emptyInstrumentCache now "BTCUSD" id (some sym)) now
      "BTC/USD" =
      (Except.ok id,
        storeMapping
          (storeMapping emptyInstrumentCache now "BTCUSD" id (some sym)) now
          "BTCUSD" id (some sym),
        ["BTC/USD", "BTCUSD"]) := by
    simp only [resolveInstrumentId, hmiss, hcand]
    simp [tryCandidates, h1, h2]
  refine ⟨?_, ?_, ?_, ?_, ?_⟩
  · rw [hcall1]
  · rw [hcall1]
    show mapGet (storeMapping emptyInstrumentCache now "BTCUSD" id
      (some sym)).symbolToId "BTC/USD" = none
    rw [hsymTo]
    rfl
  · rw [hcall1]
    show mapGet (storeMapping emptyInstrumentCache now "BTCUSD" id
      (some sym)).symbolToId "BTCUSD" = some ⟨id, now⟩
    rw [hsymTo]
    rfl
  · rw [hcall1]
    show (resolveInstrumentId resp
        (storeMapping emptyInstrumentCache now "BTCUSD" id (some sym)) now
        "BTC/USD").2.2 = ["BTC/USD", "BTCUSD"]
    rw [hcall2]
  · rw [hcall1]
    show (resolveInstrumentId resp
        (storeMapping emptyInstrumentCache now "BTCUSD" id (some sym)) now
        "BTC/USD").1 = Except.ok id
    rw [hcall2]

/-- Witness for C10: the mocked alias scenario repeats the two-candidate
search on the second call and never caches the key `BTC/USD`. -/
theorem resolveInstrumentId_alias_not_cached_witness :
    (resolveInstrumentId Fixtures.btcSearchResponses emptyInstrumentCache 0
        "BTC/USD").2.2 = ["BTC/USD", "BTCUSD"] ∧
    mapGet (resolveInstrumentId Fixtures.btcSearchResponses
        emptyInstrumentCache 0 "BTC/USD").2.1.symbolToId "BTC/USD" = none ∧
    mapGet (resolveInstrumentId Fixtures.btcSearchResponses
        emptyInstrumentCache 0 "BTC/USD").2.1.symbolToId "BTCUSD" =
      some ⟨100001, 0⟩ ∧
    (resolveInstrumentId Fixtures.btcSearchResponses
        (resolveInstrumentId Fixtures.btcSearchResponses emptyInstrumentCache
          0 "BTC/USD").2.1 0 "BTC/USD").2.2 = ["BTC/USD", "BTCUSD"] ∧
    (resolveInstrumentId Fixtures.btcSearchResponses
        (resolveInstrumentId Fixtures.btcSearchResponses emptyInstrumentCache
          0 "BTC/USD").2.1 0 "BTC/USD").1 = Except.ok 100001 :=
  resolveInstrumentId_alias_not_cached Fixtures.btcSearchResponses 0 100001
    "BTCUSD" rfl rfl

end Etoro


namespace RateLimiter
/-- On a sorted list, pruning-by-shift (`dropWhile`) removes exactly the
elements outside the window (`filter`). -/
theorem sorted_dropWhile_eq_filter (l : List Int) (c : Int)
    (h : l.Pairwise (· ≤ ·)) :
    l.dropWhile (fun t => decide (t < c)) =
      l.filter (fun t => decide (c ≤ t)) := by
  induction l with
  | nil => rfl
  | cons x xs ih =>
    rcases List.pairwise_cons.mp h with ⟨hx, hxs⟩
    by_cases hxc : x < c
    · rw [List.dropWhile_cons_of_pos (by simpa using hxc),
        List.filter_cons_of_neg (by simpa using hxc)]
      exact ih hxs
    · rw [List.dropWhile_cons_of_neg (by simpa using hxc),
        List.filter_cons_of_pos (by simpa using not_lt.mp hxc)]
      have hall : xs.filter (fun t => decide (c ≤ t)) = xs := by
        rw [List.filter_eq_self]
        intro y hy
        simpa using le_trans (not_lt.mp hxc) (hx y hy)
      rw [hall]

/-- On a sorted timestamp list, `prune` keeps exactly the timestamps inside
the trailing window. -/
theorem prune_eq_filter (ts : List Int) (now : Int)
    (h : ts.Pairwise (· ≤ ·)) :
    prune ts now = ts.filter (fun t => decide (now - windowMs ≤ t)) :=
  sorted_dropWhile_eq_filter ts (now - windowMs) h

/-- The count of any trailing window ending at `t ≥ a` is bounded by the
number of elements at least `a - windowMs`. -/
theorem countWindow_le_filter (l : List Int) (a t : Int) (h : a ≤ t) :
    countWindow l t ≤
      (l.filter (fun x => decide (a - windowMs ≤ x))).length := by
  unfold countWindow
  apply List.Sublist.length_le
  apply List.monotone_filter_right
  intro x hx
  simp only [Bool.and_eq_true, decide_eq_true_eq] at hx
  simp only [decide_eq_true_eq]
  linarith [hx.1]

/-- An admission later than `t` does not change the window count at `t`. -/
theorem countWindow_append_of_lt (l : List Int) (a t : Int) (h : t < a) :
    countWindow (l ++ [a]) t = countWindow l t := by
  unfold countWindow
  rw [List.filter_append]
  have hone : [a].filter
      (fun x => decide (t - windowMs ≤ x) && decide (x ≤ t)) = [] := by
    simp [not_le.mpr h]
  rw [hone, List.append_nil]

/-- Appending one admission keeps every trailing window under the cap,
provided the window ending at the new admission is itself under the cap. -/
theorem window_bound_append (m : Nat) (admitted : List Int) (a : Int)
    (h5 : ∀ t, countWindow admitted t ≤ m)
    (hlen : ((admitted ++ [a]).filter
        (fun x => decide (a - windowMs ≤ x))).length ≤ m) :
    ∀ t, countWindow (admitted ++ [a]) t ≤ m := by
  intro t
  by_cases ht : a ≤ t
  · exact le_trans (countWindow_le_filter (admitted ++ [a]) a t ht) hlen
  · rw [countWindow_append_of_lt admitted a t (not_le.mp ht)]
    exact h5 t

/-- Rebuild the run invariant after appending one admission. -/
theorem inv_extend (m : Nat) (admitted : List Int) (lastA a : Int)
    (newTs : List Int)
    (h1 : ∀ x ∈ admitted, x ≤ lastA) (h2 : admitted.Pairwise (· ≤ ·))
    (h5 : ∀ t, countWindow admitted t ≤ m)
    (hle : lastA ≤ a)
    (hts : newTs = (admitted ++ [a]).filter
      (fun x => decide (a - windowMs ≤ x)))
    (hlen : newTs.length ≤ m) :
    Inv m (admitted ++ [a]) newTs a := by
  refine ⟨?_, ?_, hts, hlen, ?_⟩
  · intro x hx
    rcases List.mem_append.mp hx with hx | hx
    · exact le_trans (h1 x hx) hle
    · rw [List.mem_singleton] at hx
      exact hx ▸ le_rfl
  · refine List.pairwise_append.mpr ⟨h2, List.pairwise_singleton _ _, ?_⟩
    intro x hx y hy
    rw [List.mem_singleton] at hy
    subst hy
    exact le_trans (h1 x hx) hle
  · exact window_bound_append m admitted a h5 (by rw [← hts]; exact hlen)

/-- One sequential `acquire()` step preserves the run invariant, admitting
at or after its arrival time. -/
theorem acquire_inv (m : Nat) (hm : 1 ≤ m) (admitted ts : List Int)
    (lastA now : Int) (hinv : Inv m admitted ts lastA) (hle : lastA ≤ now) :
    now ≤ (acquire m ts now).2 ∧
      Inv m (admitted ++ [(acquire m ts now).2]) (acquire m ts now).1
        (acquire m ts now).2 := by
  obtain ⟨h1, h2, h3, h4, h5⟩ := hinv
  have hts_pw : ts.Pairwise (· ≤ ·) := by
    rw [h3]; exact h2.filter _
  have hprune : prune ts now =
      admitted.filter (fun x => decide (now - windowMs ≤ x)) := by
    rw [prune_eq_filter ts now hts_pw, h3, List.filter_filter]
    apply List.filter_congr
    intro x _
    cases hd : decide (now - windowMs ≤ x) with
    | false => simp [hd]
    | true =>
      have hx2 : lastA - windowMs ≤ x := by
        have := of_decide_eq_true hd
        linarith
      simp [hd, hx2]
  by_cases hfull : m ≤ (prune ts now).length
  · -- window full: wait, prune again at the wake-up time, push
    have hplen : (prune ts now).length = m :=
      le_antisymm (le_trans ((List.dropWhile_sublist _).length_le) h4) hfull
    obtain ⟨oldest, restP, hp⟩ : ∃ o r, prune ts now = o :: r := by
      cases hcase : prune ts now with
      | nil => rw [hcase] at hplen; simp at hplen; omega
      | cons o r => exact ⟨o, r, rfl⟩
    have holdin : oldest ∈ prune ts now := by
      rw [hp]; exact List.mem_cons_self _ _
    have holdge : now - windowMs ≤ oldest := by
      rw [hprune] at holdin
      simpa using List.of_mem_filter holdin
    have hwait : 0 < oldest + windowMs - now + safetyMarginMs := by
      simp only [safetyMarginMs]
      linarith
    have hfull' : m ≤ (oldest :: restP).length := hp ▸ hfull
    have harith : now + (oldest + windowMs - now + safetyMarginMs) =
        oldest + windowMs + safetyMarginMs := by ring
    have hacq : acquire m ts now =
        (prune (oldest :: restP) (oldest + windowMs + safetyMarginMs) ++
            [oldest + windowMs + safetyMarginMs],
          oldest + windowMs + safetyMarginMs) := by
      simp only [acquire, hp]
      rw [if_pos hfull', if_pos hwait, harith]
    have hpw_pruned : (prune ts now).Pairwise (· ≤ ·) := by
      rw [hprune]; exact h2.filter _
    have hpruned2 : prune (oldest :: restP)
        (oldest + windowMs + safetyMarginMs) =
        admitted.filter (fun x =>
          decide (oldest + windowMs + safetyMarginMs - windowMs ≤ x)) := by
      rw [← hp, prune_eq_filter _ _ hpw_pruned, hprune, List.filter_filter]
      apply List.filter_congr
      intro x _
      cases hd : decide (oldest + windowMs + safetyMarginMs - windowMs ≤ x) with
      | false => simp [hd]
      | true =>
        have hx1 := of_decide_eq_true hd
        have hx2 : now - windowMs ≤ x := by
          simp only [safetyMarginMs] at hx1
          linarith
        simp [hd, hx2]
    have hdrop : prune (oldest :: restP)
        (oldest + windowMs + safetyMarginMs) =
        prune restP (oldest + windowMs + safetyMarginMs) := by
      unfold prune
      rw [List.dropWhile_cons_of_pos]
      simp only [decide_eq_true_eq, safetyMarginMs]
      linarith
    have hrest : restP.length + 1 = m := by
      rw [hp] at hplen
      simpa using hplen
    have hlen2 : (prune (oldest :: restP)
        (oldest + windowMs + safetyMarginMs)).length + 1 ≤ m := by
      rw [hdrop]
      have hd2 : (prune restP (oldest + windowMs + safetyMarginMs)).length ≤
          restP.length := (List.dropWhile_sublist _).length_le
      omega
    have hnowa : now ≤ oldest + windowMs + safetyMarginMs := by
      simp only [safetyMarginMs]
      linarith
    rw [hacq]
    refine ⟨hnowa, ?_⟩
    apply inv_extend m admitted lastA _ _ h1 h2 h5 (le_trans hle hnowa) ?_ ?_
    · rw [hpruned2, List.filter_append]
      have hain : [oldest + windowMs + safetyMarginMs].filter
          (fun x => decide (oldest + windowMs + safetyMarginMs - windowMs ≤ x)) =
          [oldest + windowMs + safetyMarginMs] := by
        have hc : decide (oldest + windowMs + safetyMarginMs - windowMs ≤
            oldest + windowMs + safetyMarginMs) = true := by
          simp only [decide_eq_true_eq, windowMs, safetyMarginMs]
          omega
        simp [hc]
        norm_num [windowMs]
      rw [hain]
    · rw [List.length_append]
      simpa using hlen2
  · -- window not full: prune and push immediately
    have hacq : acquire m ts now = (prune ts now ++ [now], now) := by
      simp only [acquire]
      rw [if_neg hfull]
    have hlt : (prune ts now).length < m := not_le.mp hfull
    rw [hacq]
    refine ⟨le_rfl, ?_⟩
    apply inv_extend m admitted lastA _ _ h1 h2 h5 hle ?_ ?_
    · rw [hprune, List.filter_append]
      have hc : decide (now - windowMs ≤ now) = true := by
        simp only [decide_eq_true_eq, windowMs]
        omega
      simp [hc]
      norm_num [windowMs]
    · rw [List.length_append]
      simp only [List.length_singleton]
      omega



/-- Induction over a sequential run: starting from any state satisfying
the invariant, no trailing window of the full admission trace exceeds the
cap. -/
theorem seq_window_bound_aux (m : Nat) (hm : 1 ≤ m) :
    ∀ (arrivals admitted ts : List Int) (lastA : Int),
      Inv m admitted ts lastA → Sequential m ts lastA arrivals →
      ∀ t, countWindow (admitted ++ admissionsFrom m ts arrivals) t ≤ m := by
  intro arrivals
  induction arrivals with
  | nil =>
    intro admitted ts lastA hinv _ t
    simpa [admissionsFrom] using hinv.2.2.2.2 t
  | cons hd tl ih =>
    intro admitted ts lastA hinv hseq t
    obtain ⟨hlt, hseq'⟩ := hseq
    have hstep := acquire_inv m hm admitted ts lastA hd hinv hlt
    have hrec := ih (admitted ++ [(acquire m ts hd).2]) (acquire m ts hd).1
      (acquire m ts hd).2 hstep.2 hseq' t
    have hsplit : admitted ++ admissionsFrom m ts (hd :: tl) =
        (admitted ++ [(acquire m ts hd).2]) ++
          admissionsFrom m (acquire m ts hd).1 tl := by
      rw [List.append_assoc, List.singleton_append]
      rfl
    rw [hsplit]
    exact hrec

/-- C2 (amended). For every sequence of non-overlapping `acquire()` calls
(each call returning before the next arrives), no trailing 60-second
window ever contains more admitted timestamps than the configured cap.
(The unamended claim fails for overlapping concurrent callers — see the
counterexample.) -/
theorem acquire_sequential_window_bound (m : Nat) (hm : 1 ≤ m)
    (arrivals : List Int) (start : Int)
    (hseq : Sequential m [] start arrivals) (t : Int) :
    countWindow (admissionsFrom m [] arrivals) t ≤ m := by
  have hinv : Inv m [] [] start :=
    ⟨by simp, by simp, by simp, by simp, fun u => by simp [countWindow]⟩
  simpa using seq_window_bound_aux m hm arrivals [] [] start hinv hseq t

/-- Witness for C2: three sequential calls under the default cap 55 stay
under the cap in the window ending at time 100. -/
theorem acquire_sequential_window_bound_witness :
    1 ≤ 55 ∧ countWindow (admissionsFrom 55 [] [0, 5, 10]) 100 ≤ 55 :=
  ⟨by decide, acquire_sequential_window_bound 55 (by decide) [0, 5, 10] 0
    ⟨by decide, by decide, by decide, trivial⟩ 100⟩

set_option maxRecDepth 10000 in
/-- C2 counterexample. With the default cap 55: the window fills with 55
admissions at time 0, then 56 callers enter `acquire()` concurrently at
time 1, all compute the same wake deadline 60050 and sleep; each wakes,
prunes and pushes without re-checking capacity, so the trailing 60-second
window ending at 60050 holds 56 > 55 admissions. The claim as stated is
false for overlapping calls (as section 4.1 of the spec itself concedes). -/
theorem rateLimiter_trailing_window_counterexample :
    55 < countWindow (concRun 55 (List.replicate 55 (ConcEvent.call 0) ++
      List.replicate 56 (ConcEvent.call 1) ++
      List.replicate 56 ConcEvent.wake)).admitted 60050 := by
  decide
end RateLimiter

end Makora
